import Mathlib

/-
Verification of the contact-book core of hw1.py: field value types (Name,
Phone, Birthday), Record, AddressBook, and the upcoming-birthday window
computation.

Embedding notes.
Python strings are Lean String values over their character lists; Python
str.isdigit is modelled with the full Unicode table of digit characters
(Numeric_Type Decimal or Digit) of the reference interpreter, enumerated
in extraPyDigits.  The classes Phone, Name, Birthday, Record define no double-underscore
str method, so the built-in str() applied to such an object yields the
default object representation, an angle-bracketed text containing the object
id in hexadecimal.  A Phone therefore carries, besides its validated value,
an object id (oid), and Phone.pyStr is the text str() produces for it.
Constructors that can raise ValueError return Except String; the fresh
object id of a newly allocated Phone is passed in as a parameter.
Dates are triples of numerals; rataDieN and fromRataDieN are the standard
civil-calendar day-number conversions, matching the proleptic Gregorian
arithmetic of the Python date type, and weekday follows the Python
convention Monday = 0 .. Sunday = 6.  The method get_upcoming_birthdays
reads the clock; the embedding passes that day in as the parameter today.
-/

/-- Calendar date, the date part of a Python datetime value. -/
structure Date where
  year : Nat
  month : Nat
  day : Nat
deriving DecidableEq

/-- Gregorian leap-year rule used by the Python date type. -/
def isLeap (y : Nat) : Bool :=
  y % 4 = 0 && (y % 100 != 0 || y % 400 = 0)

/-- Number of days of month m in year y. -/
def daysInMonth (y m : Nat) : Nat :=
  if m = 2 then (if isLeap y then 29 else 28)
  else if m = 4 || m = 6 || m = 9 || m = 11 then 30
  else 31

/-- A date is a real calendar date accepted by the Python date constructor. -/
def validDate (y m d : Nat) : Bool :=
  1 ≤ y && y ≤ 9999 && 1 ≤ m && m ≤ 12 && 1 ≤ d && d ≤ daysInMonth y m

/-- Day number of a date (days since 0000-03-01 of the proleptic Gregorian
calendar); the civil-from-days companion of fromRataDieN. -/
def rataDieN (d : Date) : Nat :=
  let y := if d.month ≤ 2 then d.year - 1 else d.year
  let era := y / 400
  let yoe := y - era * 400
  let mp := if d.month > 2 then d.month - 3 else d.month + 9
  let doy := (153 * mp + 2) / 5 + d.day - 1
  let doe := yoe * 365 + yoe / 4 - yoe / 100 + doy
  era * 146097 + doe

/-- Inverse conversion from a day number back to a calendar date. -/
def fromRataDieN (z : Nat) : Date :=
  let era := z / 146097
  let doe := z % 146097
  let yoe := (doe - doe / 1460 + doe / 36524 - doe / 146096) / 365
  let y := yoe + era * 400
  let doy := doe - (365 * yoe + yoe / 4 - yoe / 100)
  let mp := (5 * doy + 2) / 153
  let d := doy - (153 * mp + 2) / 5 + 1
  let m := if mp < 10 then mp + 3 else mp - 9
  ⟨if m ≤ 2 then y + 1 else y, m, d⟩

/-- Python date.weekday: Monday = 0 .. Sunday = 6. -/
def weekday (d : Date) : Nat := (rataDieN d + 2) % 7

/-- Python date comparison, lexicographic on year, month, day. -/
def dateLt (a b : Date) : Bool :=
  a.year < b.year || (a.year = b.year &&
    (a.month < b.month || (a.month = b.month && a.day < b.day)))

/-- Adding a nonnegative timedelta of n days to a date. -/
def addDays (d : Date) (n : Nat) : Date := fromRataDieN (rataDieN d + n)

/-- Numeric value of an ASCII digit character. -/
def digitVal (c : Char) : Nat := c.toNat - 48

/-- Decimal digits of n, most significant first, with explicit fuel
(the fuel keeps the recursion structural so terms reduce in the kernel). -/
def natCharsAux : Nat → Nat → List Char
  | 0, _ => []
  | fuel + 1, n =>
    if n < 10 then [Nat.digitChar n]
    else natCharsAux fuel (n / 10) ++ [Nat.digitChar (n % 10)]

/-- Decimal digits of n, most significant first, no leading zeros:
the text Python produces for a nonnegative integer. -/
def natChars (n : Nat) : List Char := natCharsAux (n + 1) n

/-- Zero-padding to two characters, as the strftime fields d and m do. -/
def pad2 (n : Nat) : List Char :=
  if n < 10 then '0' :: natChars n else natChars n

/-- strftime with format d.m.Y (hw1.py lines 55, 116, 155, 157):
two-digit day and month, year with no padding (glibc behaviour). -/
def strftimeDMY (d : Date) : String :=
  ⟨pad2 d.day ++ '.' :: pad2 d.month ++ '.' :: natChars d.year⟩

/-- A two-character alternative of the strptime pattern: first character
satisfying p1, second satisfying p2, value read as two decimal digits. -/
def altTwo (p1 p2 : Char → Bool) (cs : List Char) : Option (Nat × List Char) :=
  match cs with
  | c1 :: c2 :: rest =>
    if p1 c1 && p2 c2 then some (10 * digitVal c1 + digitVal c2, rest) else none
  | _ => none

/-- A one-character alternative of the strptime pattern. -/
def altOne (p : Char → Bool) (cs : List Char) : Option (Nat × List Char) :=
  match cs with
  | c :: rest => if p c then some (digitVal c, rest) else none
  | _ => none

/-- The alternatives the Python strptime machinery compiles for the day
field d: 3[01], [12] followed by a digit, 0[1-9], then a single [1-9]. -/
def dayAlts : List (List Char → Option (Nat × List Char)) :=
  [altTwo (fun c => c = '3') (fun c => c = '0' || c = '1'),
   altTwo (fun c => c = '1' || c = '2') Char.isDigit,
   altTwo (fun c => c = '0') (fun c => '1' ≤ c && c ≤ '9'),
   altOne (fun c => '1' ≤ c && c ≤ '9')]

/-- The alternatives for the month field m: 1[0-2], 0[1-9], single [1-9]. -/
def monthAlts : List (List Char → Option (Nat × List Char)) :=
  [altTwo (fun c => c = '1') (fun c => '0' ≤ c && c ≤ '2'),
   altTwo (fun c => c = '0') (fun c => '1' ≤ c && c ≤ '9'),
   altOne (fun c => '1' ≤ c && c ≤ '9')]

/-- Backtracking over the alternatives of one field, exactly as the
regular-expression engine does: the first alternative that matches and
whose continuation succeeds yields the overall result. -/
def tryAlts (alts : List (List Char → Option (Nat × List Char))) (cs : List Char)
    (k : Nat → List Char → Option α) : Option α :=
  match alts with
  | [] => none
  | a :: more =>
    match a cs with
    | some (v, rest) =>
      match k v rest with
      | some r => some r
      | none => tryAlts more cs k
    | none => tryAlts more cs k

/-- The year field Y: exactly four decimal digits. -/
def parseY4 : List Char → Option (Nat × List Char)
  | c1 :: c2 :: c3 :: c4 :: rest =>
    if c1.isDigit && c2.isDigit && c3.isDigit && c4.isDigit then
      some (10 * (10 * (10 * digitVal c1 + digitVal c2) + digitVal c3) + digitVal c4, rest)
    else none
  | _ => none

/-- Continuation after the day and month fields: a literal dot, then the
four-digit year, then the end of the string. -/
def afterMonth (d m : Nat) (r3 : List Char) : Option (Nat × Nat × Nat) :=
  match r3 with
  | '.' :: r4 =>
    match parseY4 r4 with
    | some (y, []) => some (d, m, y)
    | _ => none
  | _ => none

/-- Continuation after the day field: a literal dot, then the month
alternatives with their own continuation. -/
def afterDay (d : Nat) (r1 : List Char) : Option (Nat × Nat × Nat) :=
  match r1 with
  | '.' :: r2 => tryAlts monthAlts r2 (afterMonth d)
  | _ => none

/-- Python strptime with format d.m.Y: anchored match of the whole
string, returning day, month, year on success (hw1.py line 50). -/
def strptimeDMY (s : String) : Option (Nat × Nat × Nat) :=
  tryAlts dayAlts s.data afterDay

/-- Phone field: the validated value plus the Python object id, which is
what the default object representation (and hence str) exposes. -/
structure Phone where
  value : String
  oid : Nat
deriving DecidableEq

/-- Leading text of the default object representation of a Phone. -/
def reprHead : List Char := "<__main__.Phone object at 0x".data

/-- What str() returns for a Phone: the class defines display_info but no
double-underscore str, so the default object representation is used
(angle-bracketed, containing the object id in hexadecimal). -/
def Phone.pyStr (p : Phone) : String :=
  ⟨reprHead ++ Nat.toDigits 16 p.oid ++ ['>']⟩

/-- The Unicode code-point ranges, beyond the ASCII digits, whose
characters pass the Python str.isdigit test (Numeric_Type Decimal or
Digit, Unicode 14.0 as shipped with CPython 3.11): the decimal digits of
every script plus digit-typed characters such as superscripts. -/
def extraPyDigits : List (Nat × Nat) :=
  [(0xB2, 0xB3), (0xB9, 0xB9), (0x660, 0x669), (0x6F0, 0x6F9), (0x7C0, 0x7C9),
   (0x966, 0x96F), (0x9E6, 0x9EF), (0xA66, 0xA6F), (0xAE6, 0xAEF), (0xB66, 0xB6F),
   (0xBE6, 0xBEF), (0xC66, 0xC6F), (0xCE6, 0xCEF), (0xD66, 0xD6F), (0xDE6, 0xDEF),
   (0xE50, 0xE59), (0xED0, 0xED9), (0xF20, 0xF29), (0x1040, 0x1049), (0x1090, 0x1099),
   (0x1369, 0x1371), (0x17E0, 0x17E9), (0x1810, 0x1819), (0x1946, 0x194F),
   (0x19D0, 0x19DA), (0x1A80, 0x1A89), (0x1A90, 0x1A99), (0x1B50, 0x1B59),
   (0x1BB0, 0x1BB9), (0x1C40, 0x1C49), (0x1C50, 0x1C59), (0x2070, 0x2070),
   (0x2074, 0x2079), (0x2080, 0x2089), (0x2460, 0x2468), (0x2474, 0x247C),
   (0x2488, 0x2490), (0x24EA, 0x24EA), (0x24F5, 0x24FD), (0x24FF, 0x24FF),
   (0x2776, 0x277E), (0x2780, 0x2788), (0x278A, 0x2792), (0xA620, 0xA629),
   (0xA8D0, 0xA8D9), (0xA900, 0xA909), (0xA9D0, 0xA9D9), (0xA9F0, 0xA9F9),
   (0xAA50, 0xAA59), (0xABF0, 0xABF9), (0xFF10, 0xFF19), (0x104A0, 0x104A9),
   (0x10A40, 0x10A43), (0x10D30, 0x10D39), (0x10E60, 0x10E68), (0x11052, 0x1105A),
   (0x11066, 0x1106F), (0x110F0, 0x110F9), (0x11136, 0x1113F), (0x111D0, 0x111D9),
   (0x112F0, 0x112F9), (0x11450, 0x11459), (0x114D0, 0x114D9), (0x11650, 0x11659),
   (0x116C0, 0x116C9), (0x11730, 0x11739), (0x118E0, 0x118E9), (0x11950, 0x11959),
   (0x11C50, 0x11C59), (0x11D50, 0x11D59), (0x11DA0, 0x11DA9), (0x16A60, 0x16A69),
   (0x16AC0, 0x16AC9), (0x16B50, 0x16B59), (0x1D7CE, 0x1D7FF), (0x1E140, 0x1E149),
   (0x1E2F0, 0x1E2F9), (0x1E950, 0x1E959), (0x1F100, 0x1F10A), (0x1FBF0, 0x1FBF9)]

/-- Python's per-character digit test: an ASCII decimal digit or any
other Unicode digit character. -/
def pyCharIsDigit (c : Char) : Bool :=
  c.isDigit || extraPyDigits.any (fun r => r.1 ≤ c.toNat && c.toNat ≤ r.2)

/-- Python str.isdigit: nonempty and every character a digit character
(Unicode-aware, not restricted to decimal digits). -/
def pyIsdigit (s : String) : Bool :=
  !s.data.isEmpty && s.data.all pyCharIsDigit

/-- Phone constructor (hw1.py lines 39-42): raises ValueError unless the
value is all digits and of length 10. -/
def Phone.init (value : String) (oid : Nat) : Except String Phone :=
  if !pyIsdigit value || value.length != 10 then
    Except.error "Phone number must contain 10 digits."
  else Except.ok ⟨value, oid⟩

/-- Name field: a plain string wrapper (hw1.py lines 31-36). -/
structure Name where
  value : String
deriving DecidableEq

/-- Birthday field: the parsed datetime value (hw1.py lines 47-55). -/
structure Birthday where
  value : Date
deriving DecidableEq

/-- Birthday constructor (hw1.py lines 48-52): strptime the input with
format d.m.Y; any ValueError (pattern mismatch or impossible calendar
date) is re-raised with the fixed message. -/
def Birthday.init (s : String) : Except String Birthday :=
  match strptimeDMY s with
  | none => Except.error "Invalid date format. Use DD.MM.YYYY"
  | some (d, m, y) =>
    if validDate y m d then Except.ok ⟨⟨y, m, d⟩⟩
    else Except.error "Invalid date format. Use DD.MM.YYYY"

/-- Birthday.display_info (hw1.py lines 54-55): strftime back to d.m.Y. -/
def Birthday.display_info (b : Birthday) : String := strftimeDMY b.value

/-- A contact record (hw1.py lines 82-120). -/
structure Record where
  name : Name
  phones : List Phone
  birthday : Option Birthday
deriving DecidableEq

/-- Record.add_phone (hw1.py lines 88-91): appends the phone. -/
def Record.add_phone (r : Record) (phone : Phone) : Record :=
  { r with phones := r.phones ++ [phone] }

/-- Record.add_birthday (hw1.py lines 93-96): replaces the birthday. -/
def Record.add_birthday (r : Record) (birthday : Birthday) : Record :=
  { r with birthday := some birthday }

/-- Record.remove_phone (hw1.py lines 98-99): keep the phones whose str()
differs from the argument. -/
def Record.remove_phone (r : Record) (phone : String) : Record :=
  { r with phones := r.phones.filter (fun p => p.pyStr != phone) }

/-- Loop body of Record.edit_phone (hw1.py lines 101-106): walk the phone
list; at the first phone whose str() equals old, build a Phone from new
(which may raise) and overwrite that slot; raise ValueError if the walk
finds no match. -/
def editPhoneList (old_phone new_phone : String) (oid : Nat) :
    List Phone → Except String (List Phone)
  | [] => Except.error ("Phone number " ++ old_phone ++ " not found for editing.")
  | p :: rest =>
    if p.pyStr = old_phone then
      (Phone.init new_phone oid).map (fun ph => ph :: rest)
    else
      (editPhoneList old_phone new_phone oid rest).map (fun l => p :: l)

/-- Record.edit_phone (hw1.py lines 101-106). -/
def Record.edit_phone (r : Record) (old_phone new_phone : String) (oid : Nat) :
    Except String Record :=
  (editPhoneList old_phone new_phone oid r.phones).map
    (fun l => { r with phones := l })

/-- Loop of Record.find_phone (hw1.py lines 108-112). -/
def findPhoneList (phone : String) : List Phone → Option Phone
  | [] => none
  | p :: rest => if p.pyStr = phone then some p else findPhoneList phone rest

/-- Record.find_phone (hw1.py lines 108-112): first phone whose str()
equals the argument, else None. -/
def Record.find_phone (r : Record) (phone : String) : Option Phone :=
  findPhoneList phone r.phones

/-- The AddressBook dictionary: insertion-ordered key-value pairs, as a
Python dict is (hw1.py line 122). -/
structure AddressBook where
  data : List (String × Record)
deriving DecidableEq

/-- Python dict item assignment: overwrite the value at an existing key in
place, else append the new pair at the end. -/
def dictInsert (k : String) (v : Record) : List (String × Record) → List (String × Record)
  | [] => [(k, v)]
  | (k', v') :: rest => if k' = k then (k', v) :: rest else (k', v') :: dictInsert k v rest

/-- AddressBook.add_record (hw1.py lines 126-127). -/
def AddressBook.add_record (b : AddressBook) (record : Record) : AddressBook :=
  ⟨dictInsert record.name.value record b.data⟩

/-- Python dict get: value at the first (only) matching key, else None. -/
def lookupList (n : String) : List (String × Record) → Option Record
  | [] => none
  | (k, v) :: rest => if k = n then some v else lookupList n rest

/-- AddressBook.find (hw1.py lines 129-130). -/
def AddressBook.find (b : AddressBook) (name : String) : Option Record :=
  lookupList name b.data

/-- AddressBook.delete (hw1.py lines 132-134): drop the entry if present. -/
def AddressBook.delete (b : AddressBook) (name : String) : AddressBook :=
  ⟨b.data.filter (fun kv => kv.1 != name)⟩

/-- Python date.replace with a new year (hw1.py lines 144, 147): raises
ValueError when the target year is outside MINYEAR..MAXYEAR, or when the
day does not exist in that month of the target year (February 29 mapped
into a non-leap year). -/
def pyReplaceYear (d : Date) (y : Nat) : Except String Date :=
  if y < 1 ∨ 9999 < y then
    Except.error ("year " ++ Nat.repr y ++ " is out of range")
  else if d.day ≤ daysInMonth y d.month then Except.ok ⟨y, d.month, d.day⟩
  else Except.error "day is out of range for month"

/-- Occurrence of the stored birthday relative to today (hw1.py lines
144-147): replace the year with the current one, and if that date has
already passed, replace the year with the next one. -/
def birthdayOccurrence (today bd : Date) : Except String Date :=
  match pyReplaceYear bd today.year with
  | Except.error e => Except.error e
  | Except.ok bty =>
    if dateLt bty today then pyReplaceYear bty (today.year + 1)
    else Except.ok bty

/-- Whole days from today to the occurrence (hw1.py line 149). -/
def daysUntil (today occ : Date) : Int :=
  (rataDieN occ : Int) - (rataDieN today : Int)

/-- Reported greeting date (hw1.py lines 153-157): Saturday and Sunday
occurrences shift to the following Monday, other dates are unchanged. -/
def greetDate (bty : Date) : String :=
  if weekday bty = 5 ∨ weekday bty = 6 then
    strftimeDMY (addDays bty (7 - weekday bty))
  else strftimeDMY bty

/-- Per-record body of get_upcoming_birthdays (hw1.py lines 140-159):
none when the record has no birthday or falls outside the window, the
emitted name and greeting date when it is within 0 to 7 days. -/
def upcomingEntry (today : Date) (r : Record) : Except String (Option (String × String)) :=
  match r.birthday with
  | none => Except.ok none
  | some b =>
    match birthdayOccurrence today b.value with
    | Except.error e => Except.error e
    | Except.ok bty =>
      if 0 ≤ daysUntil today bty ∧ daysUntil today bty ≤ 7 then
        Except.ok (some (r.name.value, greetDate bty))
      else Except.ok none

/-- Iteration of get_upcoming_birthdays over the dict values in insertion
order; an exception raised at one record aborts the whole computation. -/
def upcomingList (today : Date) : List (String × Record) → Except String (List (String × String))
  | [] => Except.ok []
  | (_, r) :: rest =>
    match upcomingEntry today r with
    | Except.error e => Except.error e
    | Except.ok o =>
      match upcomingList today rest with
      | Except.error e => Except.error e
      | Except.ok l => Except.ok (match o with | some x => x :: l | none => l)

/-- AddressBook.get_upcoming_birthdays (hw1.py lines 136-161); today is
the value the method reads from the system clock. -/
def AddressBook.get_upcoming_birthdays (b : AddressBook) (today : Date) :
    Except String (List (String × String)) :=
  upcomingList today b.data

/-- Address books reachable from the empty book through the public
mutating operations. -/
inductive Reachable : AddressBook → Prop
  | empty : Reachable ⟨[]⟩
  | add_record (b : AddressBook) (r : Record) : Reachable b → Reachable (b.add_record r)
  | delete (b : AddressBook) (n : String) : Reachable b → Reachable (b.delete n)

/-- Sample book: two records with June birthdays, one mid-week, one on a
Saturday of 2024. -/
def book1 : AddressBook :=
  ⟨[("Bob", ⟨⟨"Bob"⟩, [], some ⟨⟨1990, 6, 12⟩⟩⟩),
    ("Sam", ⟨⟨"Sam"⟩, [], some ⟨⟨1990, 6, 15⟩⟩⟩)]⟩

/-- Sample book: one record whose birthday occurrence is nine days after
2024-06-10. -/
def book9 : AddressBook := ⟨[("Ann", ⟨⟨"Ann"⟩, [], some ⟨⟨1990, 6, 19⟩⟩⟩)]⟩

/-- Sample book: one record with a February 29 birthday. -/
def bookFeb : AddressBook := ⟨[("Leo", ⟨⟨"Leo"⟩, [], some ⟨⟨2000, 2, 29⟩⟩⟩)]⟩

/-- The default object representation always begins with an angle
bracket, so it never equals a string made of decimal digits. -/
theorem pyStr_ne_of_digits (p : Phone) (s : String)
    (hc : ∀ c ∈ s.data, c.isDigit = true) : Phone.pyStr p ≠ s := by
  intro h
  have hmem : '<' ∈ (Phone.pyStr p).data := by
    have hh : '<' ∈ reprHead := by decide
    simp only [Phone.pyStr]
    exact List.mem_append_left _ (List.mem_append_left _ hh)
  rw [h] at hmem
  have := hc '<' hmem
  simp at this

/-- C9: the upcoming-birthday computation fails with a runtime error on a
record whose stored birthday is February 29 when the target occurrence
year is not a leap year: the plain field replacement of the year raises
instead of returning a result.  The record is obtainable through the
normal flow, since the Birthday constructor accepts 29.02.2000. -/
theorem feb29_crash :
    Birthday.init "29.02.2000" = Except.ok ⟨⟨2000, 2, 29⟩⟩ ∧
    bookFeb.get_upcoming_birthdays ⟨2025, 6, 1⟩ =
      Except.error "day is out of range for month" := by
  constructor
  · rfl
  · rfl

/-- C5 counterexample: the constructor accepts the string 1.01.2024 (the
day field of strptime also matches a single digit), yet formatting the
parsed value back yields the padded 01.01.2024, not the original input. -/
theorem birthday_roundtrip_cex :
    Birthday.init "1.01.2024" = Except.ok ⟨⟨2024, 1, 1⟩⟩ ∧
    (Birthday.init "1.01.2024").map Birthday.display_info = Except.ok "01.01.2024" ∧
    "01.01.2024" ≠ "1.01.2024" := by
  refine ⟨rfl, rfl, ?_⟩
  decide

/-- C1 counterexample: on a record whose only phone has value 1111111111,
the call edit_phone with that very value raises ValueError instead of
succeeding, because str() of a Phone is the default object representation
and never equals a digit string. -/
theorem edit_phone_cex :
    Record.edit_phone ⟨⟨"A"⟩, [⟨"1111111111", 0⟩], none⟩ "1111111111" "2222222222" 1 =
      Except.error "Phone number 1111111111 not found for editing." := by
  rfl

/-- If no phone in the list has the argument as its str(), the edit loop
falls through and raises. -/
theorem editPhoneList_none (old_phone new_phone : String) (oid : Nat)
    (l : List Phone) (h : ∀ p ∈ l, p.pyStr ≠ old_phone) :
    editPhoneList old_phone new_phone oid l =
      Except.error ("Phone number " ++ old_phone ++ " not found for editing.") := by
  induction l with
  | nil => rfl
  | cons p rest ih =>
    rw [editPhoneList, if_neg (h p (List.mem_cons_self p rest))]
    rw [ih (fun q hq => h q (List.mem_cons_of_mem p hq))]
    rfl

/-- At the first phone whose str() equals the argument, the edit loop
overwrites that slot with the freshly constructed Phone. -/
theorem editPhoneList_found (old_phone new_phone : String) (oid : Nat)
    (l1 l2 : List Phone) (p : Phone) (h1 : ∀ q ∈ l1, q.pyStr ≠ old_phone)
    (hp : p.pyStr = old_phone) :
    editPhoneList old_phone new_phone oid (l1 ++ p :: l2) =
      (Phone.init new_phone oid).map (fun ph => l1 ++ ph :: l2) := by
  induction l1 with
  | nil =>
    rw [List.nil_append, editPhoneList, if_pos hp]
    cases Phone.init new_phone oid <;> rfl
  | cons q rest ih =>
    rw [List.cons_append, editPhoneList, if_neg (h1 q (List.mem_cons_self q rest))]
    rw [ih (fun q' hq' => h1 q' (List.mem_cons_of_mem q hq'))]
    cases Phone.init new_phone oid <;> rfl

/-- C1 (amended): edit_phone replaces in place the first phone whose str()
equals old with a Phone built from new, and raises ValueError when no
str() matches; since str() of a Phone is the default object
representation, a call whose old argument is a digit string always
raises, so the edit never succeeds on the concrete example of the claim. -/
theorem edit_phone_amended (r : Record) (old_phone new_phone : String) (oid : Nat) :
    ((∀ p ∈ r.phones, p.pyStr ≠ old_phone) →
      r.edit_phone old_phone new_phone oid =
        Except.error ("Phone number " ++ old_phone ++ " not found for editing.")) ∧
    (∀ l1 p l2, r.phones = l1 ++ p :: l2 → (∀ q ∈ l1, q.pyStr ≠ old_phone) →
      p.pyStr = old_phone →
      r.edit_phone old_phone new_phone oid =
        (Phone.init new_phone oid).map (fun ph => { r with phones := l1 ++ ph :: l2 })) ∧
    ((∀ c ∈ old_phone.data, c.isDigit = true) → ∀ p ∈ r.phones, p.pyStr ≠ old_phone) := by
  refine ⟨?_, ?_, ?_⟩
  · intro h
    rw [Record.edit_phone, editPhoneList_none old_phone new_phone oid r.phones h]
    rfl
  · intro l1 p l2 hsplit h1 hp
    rw [Record.edit_phone, hsplit, editPhoneList_found old_phone new_phone oid l1 l2 p h1 hp]
    cases Phone.init new_phone oid <;> rfl
  · intro hdig p _
    exact pyStr_ne_of_digits p old_phone hdig

/-- Witness for the amended C1: a record holding one phone of value
3333333333 rejects an edit addressed by the digit string 1111111111. -/
theorem edit_phone_amended_wit :
    Record.edit_phone ⟨⟨"B"⟩, [⟨"3333333333", 7⟩], none⟩ "1111111111" "2222222222" 8 =
      Except.error "Phone number 1111111111 not found for editing." :=
  (edit_phone_amended ⟨⟨"B"⟩, [⟨"3333333333", 7⟩], none⟩ "1111111111" "2222222222" 8).1
    ((edit_phone_amended ⟨⟨"B"⟩, [⟨"3333333333", 7⟩], none⟩ "1111111111" "2222222222" 8).2.2
      (by decide))

/-- Every ASCII decimal digit is a Python digit character. -/
theorem isDigit_pyCharIsDigit (c : Char) (h : c.isDigit = true) :
    pyCharIsDigit c = true := by
  rw [pyCharIsDigit, h, Bool.true_or]

/-- C2 counterexample: the superscript-two character is a Unicode digit
character but not a decimal digit, so the constructor accepts the
ten-character superscript string although it does not consist of decimal
digits, against the claimed exact characterisation. -/
theorem phone_validation_cex :
    Phone.init "²²²²²²²²²²" 3 = Except.ok ⟨"²²²²²²²²²²", 3⟩ ∧
    "²²²²²²²²²²".length = 10 ∧
    ¬ (∀ c ∈ "²²²²²²²²²²".data, c.isDigit = true) := by
  refine ⟨rfl, rfl, ?_⟩
  decide

/-- C2 (amended): Phone construction succeeds exactly when the input has
exactly ten characters each passing the Unicode-aware str.isdigit test
(and then carries the input as its value); on every other input it fails
with the validation error and no Phone value is produced.  Every
ten-character string of ASCII decimal digits is accepted, but acceptance
is not limited to decimal digits. -/
theorem phone_validation (s : String) (oid : Nat) :
    ((∃ p, Phone.init s oid = Except.ok p ∧ p.value = s) ↔
      (s.length = 10 ∧ ∀ c ∈ s.data, pyCharIsDigit c = true)) ∧
    (¬ (s.length = 10 ∧ ∀ c ∈ s.data, pyCharIsDigit c = true) →
      Phone.init s oid = Except.error "Phone number must contain 10 digits.") ∧
    (s.length = 10 → (∀ c ∈ s.data, c.isDigit = true) →
      ∃ p, Phone.init s oid = Except.ok p ∧ p.value = s) := by
  have hlen : s.length = s.data.length := rfl
  have hmain : ((∃ p, Phone.init s oid = Except.ok p ∧ p.value = s) ↔
      (s.length = 10 ∧ ∀ c ∈ s.data, pyCharIsDigit c = true)) ∧
      (¬ (s.length = 10 ∧ ∀ c ∈ s.data, pyCharIsDigit c = true) →
        Phone.init s oid = Except.error "Phone number must contain 10 digits.") := by
    by_cases h10 : s.length = 10
    · by_cases hall : ∀ c ∈ s.data, pyCharIsDigit c = true
      · have hne : s.data.isEmpty = false := by
          cases hd : s.data with
          | nil => rw [hlen, hd] at h10; simp at h10
          | cons a l => rfl
        have hA : s.data.all pyCharIsDigit = true := List.all_eq_true.mpr hall
        have hcond : (!pyIsdigit s || s.length != 10) = false := by
          rw [pyIsdigit, hne, hA, h10]
          exact rfl
        constructor
        · constructor
          · intro _; exact ⟨h10, hall⟩
          · intro _
            exact ⟨⟨s, oid⟩, by rw [Phone.init, hcond]; exact ⟨rfl, rfl⟩⟩
        · intro hc
          exact absurd ⟨h10, hall⟩ hc
      · have hA : s.data.all pyCharIsDigit = false := by
          cases hb : s.data.all pyCharIsDigit with
          | false => rfl
          | true => exact absurd (fun c hc => List.all_eq_true.mp hb c hc) hall
        have herr : Phone.init s oid = Except.error "Phone number must contain 10 digits." := by
          rw [Phone.init, pyIsdigit, hA, Bool.and_false, Bool.not_false, Bool.true_or]
          exact rfl
        constructor
        · constructor
          · intro ⟨p, hep, _⟩
            rw [herr] at hep
            exact absurd hep (by simp)
          · intro ⟨_, hall'⟩
            exact absurd hall' hall
        · intro _; exact herr
    · have hcond : (s.length != 10) = true := by
        simp [h10]
      have herr : Phone.init s oid = Except.error "Phone number must contain 10 digits." := by
        rw [Phone.init, hcond, Bool.or_true]
        exact rfl
      constructor
      · constructor
        · intro ⟨p, hep, _⟩
          rw [herr] at hep
          exact absurd hep (by simp)
        · intro ⟨h10', _⟩
          exact absurd h10' h10
      · intro _; exact herr
  refine ⟨hmain.1, hmain.2, ?_⟩
  intro h10 hall
  exact hmain.1.mpr ⟨h10, fun c hc => isDigit_pyCharIsDigit c (hall c hc)⟩

/-- Witness for the amended C2: the ten-decimal-digit string 0123456789
is accepted, and the eleven-character string 11111111111 is rejected
with the error message. -/
theorem phone_validation_wit :
    (∃ p, Phone.init "0123456789" 5 = Except.ok p ∧ p.value = "0123456789") ∧
    Phone.init "11111111111" 5 = Except.error "Phone number must contain 10 digits." :=
  ⟨(phone_validation "0123456789" 5).2.2 (by decide) (by decide),
   (phone_validation "11111111111" 5).2.1 (by intro h; exact absurd h.1 (by decide))⟩

/-- C6: remove_phone keeps the name and birthday, removes exactly the
phones whose str() equals the argument, and leaves the remaining phones
in their original order; it is a plain filter and never raises. -/
theorem remove_phone_spec (r : Record) (s : String) :
    (r.remove_phone s).name = r.name ∧
    (r.remove_phone s).birthday = r.birthday ∧
    List.Sublist (r.remove_phone s).phones r.phones ∧
    ∀ p, p ∈ (r.remove_phone s).phones ↔ (p ∈ r.phones ∧ p.pyStr ≠ s) := by
  refine ⟨rfl, rfl, List.filter_sublist _, ?_⟩
  intro p
  have hph : (r.remove_phone s).phones = r.phones.filter (fun q => q.pyStr != s) := rfl
  rw [hph, List.mem_filter, bne_iff_ne]

/-- The the find loop returns none exactly when no str() matches, and any
phone it returns is the first match in the list. -/
theorem findPhoneList_spec (s : String) (l : List Phone) :
    (findPhoneList s l = none ↔ ∀ p ∈ l, p.pyStr ≠ s) ∧
    (∀ p, findPhoneList s l = some p →
      p.pyStr = s ∧ ∃ l1 l2, l = l1 ++ p :: l2 ∧ ∀ q ∈ l1, q.pyStr ≠ s) := by
  induction l with
  | nil => exact ⟨by simp [findPhoneList], fun p h => by simp [findPhoneList] at h⟩
  | cons q rest ih =>
    by_cases hq : q.pyStr = s
    · constructor
      · rw [findPhoneList, if_pos hq]
        constructor
        · intro h; exact absurd h (by simp)
        · intro h
          exact absurd hq (h q (List.mem_cons_self q rest))
      · intro p hp
        rw [findPhoneList, if_pos hq] at hp
        have hpq : q = p := by injection hp
        subst hpq
        exact ⟨hq, [], rest, rfl, by simp⟩
    · constructor
      · rw [findPhoneList, if_neg hq, ih.1]
        constructor
        · intro h p hp
          rcases List.mem_cons.mp hp with h1 | h2
          · rw [h1]; exact hq
          · exact h p h2
        · intro h p hp
          exact h p (List.mem_cons_of_mem q hp)
      · intro p hp
        rw [findPhoneList, if_neg hq] at hp
        obtain ⟨hps, l1, l2, hsplit, hl1⟩ := ih.2 p hp
        refine ⟨hps, q :: l1, l2, by rw [hsplit, List.cons_append], ?_⟩
        intro q' hq'
        rcases List.mem_cons.mp hq' with h1 | h2
        · rw [h1]; exact hq
        · exact hl1 q' h2

/-- C7: find_phone returns the first phone in the sequence whose str()
equals the argument, and None when no str() equals it; it is a pure
lookup and never raises. -/
theorem find_phone_spec (r : Record) (s : String) :
    (r.find_phone s = none ↔ ∀ p ∈ r.phones, p.pyStr ≠ s) ∧
    (∀ p, r.find_phone s = some p →
      p.pyStr = s ∧ ∃ l1 l2, r.phones = l1 ++ p :: l2 ∧ ∀ q ∈ l1, q.pyStr ≠ s) :=
  findPhoneList_spec s r.phones

/-- Witness for C7: searching a record for the digit string of its own
phone returns None, since str() of the stored Phone is the default object
representation. -/
theorem find_phone_spec_wit :
    Record.find_phone ⟨⟨"A"⟩, [⟨"1111111111", 0⟩], none⟩ "1111111111" = none :=
  (find_phone_spec ⟨⟨"A"⟩, [⟨"1111111111", 0⟩], none⟩ "1111111111").1.mpr (by decide)

/-- Dict assignment followed by a get of the same key yields the assigned
value, whether or not the key was present. -/
theorem lookup_dictInsert_self (k : String) (v : Record) (l : List (String × Record)) :
    lookupList k (dictInsert k v l) = some v := by
  induction l with
  | nil => simp [dictInsert, lookupList]
  | cons kv rest ih =>
    obtain ⟨k', v'⟩ := kv
    by_cases h : k' = k
    · rw [dictInsert, if_pos h, lookupList, if_pos h]
    · rw [dictInsert, if_neg h, lookupList, if_neg h, ih]

/-- Dict assignment leaves the key sequence unchanged when the key was
present and appends the key otherwise. -/
theorem keys_dictInsert (k : String) (v : Record) (l : List (String × Record)) :
    (dictInsert k v l).map Prod.fst =
      if k ∈ l.map Prod.fst then l.map Prod.fst else l.map Prod.fst ++ [k] := by
  induction l with
  | nil => simp [dictInsert]
  | cons kv rest ih =>
    obtain ⟨k', v'⟩ := kv
    by_cases h : k' = k
    · subst h
      rw [dictInsert, if_pos rfl]
      simp
    · rw [dictInsert, if_neg h]
      by_cases hk : k ∈ rest.map Prod.fst
      · simp only [List.map_cons, ih, if_pos hk]
        rw [if_pos (List.mem_cons_of_mem _ hk)]
      · simp only [List.map_cons, ih, if_neg hk]
        rw [if_neg]
        · rfl
        · intro hmem
          rcases List.mem_cons.mp hmem with h1 | h2
          · exact h h1.symm
          · exact hk h2

/-- Dict assignment preserves distinctness of the keys. -/
theorem nodup_keys_dictInsert (k : String) (v : Record) (l : List (String × Record))
    (h : (l.map Prod.fst).Nodup) : ((dictInsert k v l).map Prod.fst).Nodup := by
  rw [keys_dictInsert]
  by_cases hk : k ∈ l.map Prod.fst
  · rw [if_pos hk]; exact h
  · rw [if_neg hk]
    refine List.Nodup.append h (List.nodup_singleton k) ?_
    intro a ha hb
    rw [List.mem_singleton] at hb
    subst hb
    exact hk ha

/-- With distinct keys, after a dict assignment the assigned key maps to
the assigned value and to nothing else. -/
theorem dictInsert_value (k : String) (v : Record) (l : List (String × Record))
    (h : (l.map Prod.fst).Nodup) :
    ∀ kv ∈ dictInsert k v l, kv.1 = k → kv.2 = v := by
  induction l with
  | nil =>
    intro kv hkv _
    rw [dictInsert, List.mem_singleton] at hkv
    rw [hkv]
  | cons hd rest ih =>
    obtain ⟨k', v'⟩ := hd
    intro kv hkv hk1
    have hnd : k' ∉ rest.map Prod.fst ∧ (rest.map Prod.fst).Nodup :=
      List.nodup_cons.mp (by simpa using h)
    by_cases hke : k' = k
    · rw [dictInsert, if_pos hke] at hkv
      rcases List.mem_cons.mp hkv with h1 | h2
      · rw [h1]
      · exfalso
        apply hnd.1
        rw [hke, ← hk1]
        exact List.mem_map_of_mem Prod.fst h2
    · rw [dictInsert, if_neg hke] at hkv
      rcases List.mem_cons.mp hkv with h1 | h2
      · exfalso
        rw [h1] at hk1
        exact hke hk1
      · exact ih hnd.2 kv h2 hk1

/-- C8: adding two records carrying the same name leaves the book mapping
that name to the second record only; the earlier record (and its phone
list) is fully replaced, with no merge. -/
theorem add_record_overwrite (b : AddressBook) (r1 r2 : Record)
    (hname : r1.name.value = r2.name.value)
    (hnodup : (b.data.map Prod.fst).Nodup) :
    ((b.add_record r1).add_record r2).find r2.name.value = some r2 ∧
    ∀ kv ∈ ((b.add_record r1).add_record r2).data, kv.1 = r2.name.value → kv.2 = r2 := by
  constructor
  · exact lookup_dictInsert_self _ _ _
  · exact dictInsert_value _ _ _ (nodup_keys_dictInsert _ _ _ hnodup)

/-- Witness for C8: on the empty book, adding the record A with phone
1111111111 and then the record A with phone 2222222222 leaves A mapped to
the second record. -/
theorem add_record_overwrite_wit :
    (AddressBook.add_record (AddressBook.add_record ⟨[]⟩ ⟨⟨"A"⟩, [⟨"1111111111", 0⟩], none⟩)
        ⟨⟨"A"⟩, [⟨"2222222222", 1⟩], none⟩).find "A" =
      some ⟨⟨"A"⟩, [⟨"2222222222", 1⟩], none⟩ :=
  (add_record_overwrite ⟨[]⟩ ⟨⟨"A"⟩, [⟨"1111111111", 0⟩], none⟩
    ⟨⟨"A"⟩, [⟨"2222222222", 1⟩], none⟩ rfl List.nodup_nil).1

/-- A successful dict get always returns a pair present in the book. -/
theorem lookupList_mem (n : String) (l : List (String × Record)) (r : Record)
    (h : lookupList n l = some r) : (n, r) ∈ l := by
  induction l with
  | nil => simp [lookupList] at h
  | cons hd rest ih =>
    obtain ⟨k, v⟩ := hd
    by_cases hk : k = n
    · rw [lookupList, if_pos hk] at h
      have hv : v = r := by injection h
      subst hv
      subst hk
      exact List.mem_cons_self _ _
    · rw [lookupList, if_neg hk] at h
      exact List.mem_cons_of_mem _ (ih h)

/-- Every pair of the dict after an assignment is either the assigned
pair or a pair already present. -/
theorem dictInsert_mem (k : String) (v : Record) (l : List (String × Record)) :
    ∀ kv ∈ dictInsert k v l, kv = (k, v) ∨ kv ∈ l := by
  induction l with
  | nil =>
    intro kv h
    rw [dictInsert, List.mem_singleton] at h
    exact Or.inl h
  | cons hd rest ih =>
    obtain ⟨k', v'⟩ := hd
    intro kv h
    by_cases hke : k' = k
    · rw [dictInsert, if_pos hke] at h
      rcases List.mem_cons.mp h with h1 | h2
      · subst hke
        exact Or.inl h1
      · exact Or.inr (List.mem_cons_of_mem _ h2)
    · rw [dictInsert, if_neg hke] at h
      rcases List.mem_cons.mp h with h1 | h2
      · refine Or.inr ?_
        rw [h1]
        exact List.mem_cons_self _ _
      · rcases ih kv h2 with ha | hb
        · exact Or.inl ha
        · exact Or.inr (List.mem_cons_of_mem _ hb)

/-- C10: in every address book reachable through the public operations,
each stored key equals the name value of the record it maps to;
add_record establishes this for the inserted pair, delete preserves it,
and find consequently only returns records whose name is the queried key. -/
theorem address_book_key_invariant (b : AddressBook) (h : Reachable b) :
    (∀ kv ∈ b.data, kv.2.name.value = kv.1) ∧
    (∀ n r, b.find n = some r → r.name.value = n) := by
  have hinv : ∀ kv ∈ b.data, kv.2.name.value = kv.1 := by
    induction h with
    | empty =>
      intro kv hkv
      simp at hkv
    | add_record b' r _ ih =>
      intro kv hkv
      rcases dictInsert_mem r.name.value r b'.data kv hkv with h1 | h2
      · rw [h1]
      · exact ih kv h2
    | delete b' n _ ih =>
      intro kv hkv
      have hkv' : kv ∈ b'.data.filter (fun kv => kv.1 != n) := hkv
      exact ih kv (List.mem_filter.mp hkv').1
  refine ⟨hinv, ?_⟩
  intro n r hfind
  exact hinv (n, r) (lookupList_mem n b.data r hfind)

/-- Witness for C10: the book obtained by one add_record and one delete
satisfies the key-consistency invariant. -/
theorem address_book_key_invariant_wit :
    (∀ kv ∈ (AddressBook.delete (AddressBook.add_record ⟨[]⟩ ⟨⟨"A"⟩, [], none⟩) "Z").data,
      kv.2.name.value = kv.1) ∧
    (∀ n r,
      (AddressBook.delete (AddressBook.add_record ⟨[]⟩ ⟨⟨"A"⟩, [], none⟩) "Z").find n = some r →
      r.name.value = n) :=
  address_book_key_invariant _
    (Reachable.delete _ "Z" (Reachable.add_record _ _ Reachable.empty))


/-- Characterisation of the per-record body: an entry is emitted exactly
for a record with a birthday whose occurrence exists and lies within 0 to
7 days of today, and the entry then carries the record name and the
greeting date. -/
theorem upcomingEntry_some_iff (today : Date) (r : Record) (x : String × String) :
    upcomingEntry today r = Except.ok (some x) ↔
      ∃ bd, r.birthday = some bd ∧
        ∃ occ, birthdayOccurrence today bd.value = Except.ok occ ∧
          0 ≤ daysUntil today occ ∧ daysUntil today occ ≤ 7 ∧
          x = (r.name.value, greetDate occ) := by
  rw [upcomingEntry]
  split
  next heq => simp [heq]
  next b heq =>
    split
    next e heq2 =>
      constructor
      · intro hx
        exact absurd hx (by simp)
      · rintro ⟨bd, hbd, occ, hocc, _⟩
        rw [heq] at hbd
        have hb2 : b = bd := by injection hbd
        subst hb2
        rw [heq2] at hocc
        exact absurd hocc (by simp)
    next bty heq2 =>
      by_cases hw : 0 ≤ daysUntil today bty ∧ daysUntil today bty ≤ 7
      · rw [if_pos hw]
        constructor
        · intro hx
          simp only [Except.ok.injEq, Option.some.injEq] at hx
          exact ⟨b, heq, bty, heq2, hw.1, hw.2, hx.symm⟩
        · rintro ⟨bd, hbd, occ, hocc, _, _, hx⟩
          rw [heq] at hbd
          have hb2 : b = bd := by injection hbd
          subst hb2
          rw [heq2] at hocc
          have ho2 : bty = occ := by injection hocc
          subst ho2
          rw [hx]
      · rw [if_neg hw]
        constructor
        · intro hx
          exact absurd hx (by simp)
        · rintro ⟨bd, hbd, occ, hocc, h0, h7, _⟩
          rw [heq] at hbd
          have hb2 : b = bd := by injection hbd
          subst hb2
          rw [heq2] at hocc
          have ho2 : bty = occ := by injection hocc
          subst ho2
          exact absurd ⟨h0, h7⟩ hw

/-- Membership in a successful iteration result: exactly the entries
emitted by some record of the book. -/
theorem upcomingList_mem (today : Date) (ds : List (String × Record))
    (l : List (String × String)) (hok : upcomingList today ds = Except.ok l)
    (x : String × String) :
    x ∈ l ↔ ∃ kr, kr ∈ ds ∧ upcomingEntry today kr.2 = Except.ok (some x) := by
  induction ds generalizing l with
  | nil =>
    rw [upcomingList] at hok
    have hl : l = [] := by injection hok with h; exact h.symm
    subst hl
    simp
  | cons hd tl ih =>
    obtain ⟨k0, r0⟩ := hd
    rw [upcomingList] at hok
    cases he : upcomingEntry today r0 with
    | error e =>
      rw [he] at hok
      exact absurd hok (by simp)
    | ok o =>
      rw [he] at hok
      cases hrest : upcomingList today tl with
      | error e =>
        rw [hrest] at hok
        exact absurd hok (by simp)
      | ok l' =>
        rw [hrest] at hok
        cases o with
        | none =>
          have hok2 : (Except.ok l' : Except String (List (String × String))) = Except.ok l := hok
          have hl : l = l' := by injection hok2 with h; exact h.symm
          subst hl
          rw [ih _ hrest]
          constructor
          · rintro ⟨kr, hkr, hx⟩
            exact ⟨kr, List.mem_cons_of_mem _ hkr, hx⟩
          · rintro ⟨kr, hkr, hx⟩
            rcases List.mem_cons.mp hkr with h1 | h2
            · exfalso
              have hx2 : upcomingEntry today r0 = Except.ok (some x) := by
                rw [h1] at hx
                exact hx
              rw [he] at hx2
              simp at hx2
            · exact ⟨kr, h2, hx⟩
        | some y =>
          have hok2 :
              (Except.ok (y :: l') : Except String (List (String × String))) = Except.ok l := hok
          have hl : l = y :: l' := by injection hok2 with h; exact h.symm
          subst hl
          constructor
          · intro hx
            rcases List.mem_cons.mp hx with h1 | h2
            · subst h1
              exact ⟨(k0, r0), List.mem_cons_self _ _, he⟩
            · obtain ⟨kr, hkr, hx'⟩ := (ih l' hrest).mp h2
              exact ⟨kr, List.mem_cons_of_mem _ hkr, hx'⟩
          · rintro ⟨kr, hkr, hx⟩
            rcases List.mem_cons.mp hkr with h1 | h2
            · have hx2 : upcomingEntry today r0 = Except.ok (some x) := by
                rw [h1] at hx
                exact hx
              rw [he] at hx2
              have hsome : some y = some x := by injection hx2
              have hyx : y = x := by injection hsome
              rw [← hyx]
              exact List.mem_cons_self _ _
            · exact List.mem_cons_of_mem _ ((ih l' hrest).mpr ⟨kr, h2, hx⟩)

/-- C3: for every book and every today, a record with a birthday appears
in the upcoming-birthday result exactly when its occurrence (this year,
rolled forward to next year if already passed) lies between 0 and 7 days
from today, inclusive. -/
theorem upcoming_inclusion (today : Date) (b : AddressBook) (l : List (String × String))
    (hok : b.get_upcoming_birthdays today = Except.ok l) (n : String) :
    (∃ g, (n, g) ∈ l) ↔
      ∃ kr, kr ∈ b.data ∧ kr.2.name.value = n ∧
        ∃ bd, kr.2.birthday = some bd ∧
          ∃ occ, birthdayOccurrence today bd.value = Except.ok occ ∧
            0 ≤ daysUntil today occ ∧ daysUntil today occ ≤ 7 := by
  constructor
  · rintro ⟨g, hg⟩
    obtain ⟨kr, hkr, he⟩ := (upcomingList_mem today b.data l hok (n, g)).mp hg
    obtain ⟨bd, hbd, occ, hocc, h0, h7, hx⟩ := (upcomingEntry_some_iff today kr.2 (n, g)).mp he
    have hn : n = kr.2.name.value := congrArg Prod.fst hx
    exact ⟨kr, hkr, hn.symm, bd, hbd, occ, hocc, h0, h7⟩
  · rintro ⟨kr, hkr, hn, bd, hbd, occ, hocc, h0, h7⟩
    refine ⟨greetDate occ, ?_⟩
    refine (upcomingList_mem today b.data l hok (n, greetDate occ)).mpr ?_
    refine ⟨kr, hkr, (upcomingEntry_some_iff today kr.2 (n, greetDate occ)).mpr ?_⟩
    refine ⟨bd, hbd, occ, hocc, h0, h7, ?_⟩
    rw [hn]

/-- Witness for C3: with today 10.06.2024 the contact Ann, whose birthday
occurrence 19.06.2024 is nine days away, is excluded: the result of the
computation is the empty list, so the window condition cannot hold. -/
theorem upcoming_inclusion_wit :
    ¬ ∃ kr, kr ∈ book9.data ∧ kr.2.name.value = "Ann" ∧
      ∃ bd, kr.2.birthday = some bd ∧
        ∃ occ, birthdayOccurrence ⟨2024, 6, 10⟩ bd.value = Except.ok occ ∧
          0 ≤ daysUntil ⟨2024, 6, 10⟩ occ ∧ daysUntil ⟨2024, 6, 10⟩ occ ≤ 7 :=
  fun h => by
    obtain ⟨g, hg⟩ := (upcoming_inclusion ⟨2024, 6, 10⟩ book9 [] rfl "Ann").mpr h
    simp at hg

/-- C4: every entry of the upcoming-birthday result reports, for an
occurrence falling on Saturday (weekday 5) or Sunday (weekday 6), the
occurrence shifted forward by 7 minus the weekday index (the following
Monday), and otherwise the occurrence date unchanged. -/
theorem upcoming_greeting (today : Date) (b : AddressBook) (l : List (String × String))
    (hok : b.get_upcoming_birthdays today = Except.ok l) (n g : String)
    (hmem : (n, g) ∈ l) :
    ∃ kr, kr ∈ b.data ∧ kr.2.name.value = n ∧
      ∃ bd, kr.2.birthday = some bd ∧
        ∃ occ, birthdayOccurrence today bd.value = Except.ok occ ∧
          ((weekday occ = 5 ∨ weekday occ = 6) →
            g = strftimeDMY (addDays occ (7 - weekday occ))) ∧
          (¬ (weekday occ = 5 ∨ weekday occ = 6) → g = strftimeDMY occ) := by
  obtain ⟨kr, hkr, he⟩ := (upcomingList_mem today b.data l hok (n, g)).mp hmem
  obtain ⟨bd, hbd, occ, hocc, h0, h7, hx⟩ := (upcomingEntry_some_iff today kr.2 (n, g)).mp he
  have hn : n = kr.2.name.value := congrArg Prod.fst hx
  have hg : g = greetDate occ := congrArg Prod.snd hx
  refine ⟨kr, hkr, hn.symm, bd, hbd, occ, hocc, ?_, ?_⟩
  · intro hw
    rw [hg, greetDate, if_pos hw]
  · intro hw
    rw [hg, greetDate, if_neg hw]

/-- Witness for C4: with today 10.06.2024, the book holding Bob (birthday
12.06.1990, a Wednesday occurrence) and Sam (birthday 15.06.1990, a
Saturday occurrence) reports greeting dates 12.06.2024 and 17.06.2024. -/
theorem upcoming_greeting_wit :
    (∃ kr, kr ∈ book1.data ∧ kr.2.name.value = "Bob" ∧
      ∃ bd, kr.2.birthday = some bd ∧
        ∃ occ, birthdayOccurrence ⟨2024, 6, 10⟩ bd.value = Except.ok occ ∧
          ((weekday occ = 5 ∨ weekday occ = 6) →
            "12.06.2024" = strftimeDMY (addDays occ (7 - weekday occ))) ∧
          (¬ (weekday occ = 5 ∨ weekday occ = 6) → "12.06.2024" = strftimeDMY occ)) ∧
    (∃ kr, kr ∈ book1.data ∧ kr.2.name.value = "Sam" ∧
      ∃ bd, kr.2.birthday = some bd ∧
        ∃ occ, birthdayOccurrence ⟨2024, 6, 10⟩ bd.value = Except.ok occ ∧
          ((weekday occ = 5 ∨ weekday occ = 6) →
            "17.06.2024" = strftimeDMY (addDays occ (7 - weekday occ))) ∧
          (¬ (weekday occ = 5 ∨ weekday occ = 6) → "17.06.2024" = strftimeDMY occ)) :=
  ⟨upcoming_greeting ⟨2024, 6, 10⟩ book1 [("Bob", "12.06.2024"), ("Sam", "17.06.2024")] rfl
      "Bob" "12.06.2024" (by decide),
   upcoming_greeting ⟨2024, 6, 10⟩ book1 [("Bob", "12.06.2024"), ("Sam", "17.06.2024")] rfl
      "Sam" "17.06.2024" (by decide)⟩

/-- Backtracking step: an alternative that does not match is skipped. -/
theorem tryAlts_cons_none {α : Type} (a : List Char → Option (Nat × List Char))
    (alts : List (List Char → Option (Nat × List Char))) (cs : List Char)
    (k : Nat → List Char → Option α) (h : a cs = none) :
    tryAlts (a :: alts) cs k = tryAlts alts cs k := by
  simp only [tryAlts, h]

/-- Backtracking step: an alternative that matches and whose continuation
succeeds settles the overall result. -/
theorem tryAlts_cons_some {α : Type} (a : List Char → Option (Nat × List Char))
    (alts : List (List Char → Option (Nat × List Char))) (cs : List Char)
    (k : Nat → List Char → Option α) (v : Nat) (rest : List Char) (res : α)
    (h1 : a cs = some (v, rest)) (h2 : k v rest = some res) :
    tryAlts (a :: alts) cs k = some res := by
  simp only [tryAlts, h1, h2]

/-- The digit writer is independent of its fuel, as long as the fuel is
positive enough. -/
theorem natCharsAux_fuel (n : Nat) : ∀ f1 f2, n < f1 → n < f2 →
    natCharsAux f1 n = natCharsAux f2 n := by
  induction n using Nat.strong_induction_on with
  | _ n ih =>
    intro f1 f2 h1 h2
    cases f1 with
    | zero => omega
    | succ f1' =>
      cases f2 with
      | zero => omega
      | succ f2' =>
        by_cases hn : n < 10
        · rw [natCharsAux, natCharsAux, if_pos hn, if_pos hn]
        · have hdiv : n / 10 < n := Nat.div_lt_self (by omega) (by omega)
          rw [natCharsAux, natCharsAux, if_neg hn, if_neg hn]
          rw [ih (n / 10) hdiv f1' f2' (by omega) (by omega)]

/-- One-digit numbers print as their digit. -/
theorem natChars_lt10 (n : Nat) (h : n < 10) : natChars n = [Nat.digitChar n] := by
  rw [natChars, natCharsAux, if_pos h]

/-- Larger numbers print as their quotient followed by their last digit. -/
theorem natChars_ge10 (n : Nat) (h : 10 ≤ n) :
    natChars n = natChars (n / 10) ++ [Nat.digitChar (n % 10)] := by
  have hdiv : n / 10 < n := Nat.div_lt_self (by omega) (by omega)
  rw [natChars, natCharsAux, if_neg (by omega)]
  rw [natCharsAux_fuel (n / 10) n (n / 10 + 1) (by omega) (by omega)]
  rfl

/-- Two-digit numbers print as exactly two digits. -/
theorem natChars_two (n : Nat) (h1 : 10 ≤ n) (h2 : n ≤ 99) :
    natChars n = [Nat.digitChar (n / 10), Nat.digitChar (n % 10)] := by
  rw [natChars_ge10 n h1, natChars_lt10 (n / 10) (by omega)]
  rfl

/-- Four-digit numbers print as exactly four digits. -/
theorem natChars_four (y : Nat) (h1 : 1000 ≤ y) (h2 : y ≤ 9999) :
    natChars y = [Nat.digitChar (y / 1000), Nat.digitChar (y / 100 % 10),
      Nat.digitChar (y / 10 % 10), Nat.digitChar (y % 10)] := by
  have e1 : y / 10 / 10 = y / 100 := by
    rw [Nat.div_div_eq_div_mul]
  have e2 : y / 100 / 10 = y / 1000 := by
    rw [Nat.div_div_eq_div_mul]
  rw [natChars_ge10 y (by omega), natChars_ge10 (y / 10) (by omega), e1,
    natChars_two (y / 100) (by omega) (by omega), e2]
  rfl

/-- The ten digit characters are digits. -/
theorem digitChar_isDigit : ∀ k, k < 10 → (Nat.digitChar k).isDigit = true := by
  decide

/-- The numeric value of a digit character recovers the digit. -/
theorem digitVal_digitChar : ∀ k, k < 10 → digitVal (Nat.digitChar k) = k := by
  decide

/-- The day alternatives of strptime, applied to a zero-padded two-digit
day between 1 and 31, read exactly that day and hand the remainder to the
continuation. -/
theorem dayParse {α : Type} (d : Nat) (h1 : 1 ≤ d) (h2 : d ≤ 31) (r : List Char)
    (k : Nat → List Char → Option α) (res : α) (hk : k d r = some res) :
    tryAlts dayAlts (pad2 d ++ r) k = some res := by
  interval_cases d <;>
    first
      | exact tryAlts_cons_some _ _ _ _ _ _ _ rfl hk
      | exact (tryAlts_cons_none _ _ _ _ rfl).trans
          (tryAlts_cons_some _ _ _ _ _ _ _ rfl hk)
      | exact (tryAlts_cons_none _ _ _ _ rfl).trans
          ((tryAlts_cons_none _ _ _ _ rfl).trans
            (tryAlts_cons_some _ _ _ _ _ _ _ rfl hk))

/-- The month alternatives of strptime, applied to a zero-padded
two-digit month between 1 and 12, read exactly that month. -/
theorem monthParse {α : Type} (m : Nat) (h1 : 1 ≤ m) (h2 : m ≤ 12) (r : List Char)
    (k : Nat → List Char → Option α) (res : α) (hk : k m r = some res) :
    tryAlts monthAlts (pad2 m ++ r) k = some res := by
  interval_cases m <;>
    first
      | exact tryAlts_cons_some _ _ _ _ _ _ _ rfl hk
      | exact (tryAlts_cons_none _ _ _ _ rfl).trans
          (tryAlts_cons_some _ _ _ _ _ _ _ rfl hk)

/-- The four-digit year field reads back exactly the printed year. -/
theorem parseY4_digits (y : Nat) (h1 : 1000 ≤ y) (h2 : y ≤ 9999) :
    parseY4 (natChars y) = some (y, []) := by
  rw [natChars_four y h1 h2]
  have hdig : ((Nat.digitChar (y / 1000)).isDigit && (Nat.digitChar (y / 100 % 10)).isDigit &&
      (Nat.digitChar (y / 10 % 10)).isDigit && (Nat.digitChar (y % 10)).isDigit) = true := by
    rw [digitChar_isDigit _ (by omega), digitChar_isDigit _ (by omega),
      digitChar_isDigit _ (by omega), digitChar_isDigit _ (by omega)]
    rfl
  rw [parseY4, if_pos hdig, digitVal_digitChar _ (by omega), digitVal_digitChar _ (by omega),
    digitVal_digitChar _ (by omega), digitVal_digitChar _ (by omega)]
  have harith : 10 * (10 * (10 * (y / 1000) + y / 100 % 10) + y / 10 % 10) + y % 10 = y := by
    omega
  rw [harith]

/-- No month has more than 31 days. -/
theorem daysInMonth_le (y m : Nat) : daysInMonth y m ≤ 31 := by
  rw [daysInMonth]
  split
  · split <;> omega
  · split <;> omega

/-- C5 (amended): the round trip holds on the canonical zero-padded
inputs: for every real calendar date with two-digit-padded day and month
and a four-digit year of at least 1000, the constructor accepts its
strftime form and formatting the result reproduces that input exactly. -/
theorem birthday_roundtrip_canonical (d m y : Nat) (hd1 : 1 ≤ d) (hm1 : 1 ≤ m)
    (hm2 : m ≤ 12) (hy1 : 1000 ≤ y) (hy2 : y ≤ 9999) (hdm : d ≤ daysInMonth y m) :
    Birthday.init (strftimeDMY ⟨y, m, d⟩) = Except.ok ⟨⟨y, m, d⟩⟩ ∧
    (Birthday.init (strftimeDMY ⟨y, m, d⟩)).map Birthday.display_info =
      Except.ok (strftimeDMY ⟨y, m, d⟩) := by
  have hd31 : d ≤ 31 := le_trans hdm (daysInMonth_le y m)
  have hparse : strptimeDMY (strftimeDMY ⟨y, m, d⟩) = some (d, m, y) := by
    have hdata : (strftimeDMY ⟨y, m, d⟩).data =
        pad2 d ++ ('.' :: (pad2 m ++ ('.' :: natChars y))) := by
      show pad2 d ++ '.' :: pad2 m ++ '.' :: natChars y =
        pad2 d ++ ('.' :: (pad2 m ++ ('.' :: natChars y)))
      rw [List.append_assoc]
      rfl
    rw [strptimeDMY, hdata]
    refine dayParse d hd1 hd31 _ _ _ ?_
    rw [afterDay]
    refine monthParse m hm1 hm2 _ _ _ ?_
    rw [afterMonth, parseY4_digits y hy1 hy2]
  have hvalid : validDate y m d = true := by
    rw [validDate]
    simp only [Bool.and_eq_true, decide_eq_true_eq]
    refine ⟨⟨⟨⟨⟨by omega, by omega⟩, by omega⟩, by omega⟩, by omega⟩, hdm⟩
  have hinit : Birthday.init (strftimeDMY ⟨y, m, d⟩) = Except.ok ⟨⟨y, m, d⟩⟩ := by
    rw [Birthday.init, hparse]
    show (if validDate y m d = true then Except.ok (⟨⟨y, m, d⟩⟩ : Birthday)
      else Except.error "Invalid date format. Use DD.MM.YYYY") = Except.ok ⟨⟨y, m, d⟩⟩
    rw [if_pos hvalid]
  refine ⟨hinit, ?_⟩
  rw [hinit]
  rfl

/-- Witness for the amended C5: the canonical string 05.06.2024 parses to
the date 2024-06-05 and formats back to itself. -/
theorem birthday_roundtrip_canonical_wit :
    Birthday.init (strftimeDMY ⟨2024, 6, 5⟩) = Except.ok ⟨⟨2024, 6, 5⟩⟩ ∧
    (Birthday.init (strftimeDMY ⟨2024, 6, 5⟩)).map Birthday.display_info =
      Except.ok (strftimeDMY ⟨2024, 6, 5⟩) :=
  birthday_roundtrip_canonical 5 6 2024 (by decide) (by decide) (by decide) (by decide)
    (by decide) (by decide)
